import Mathlib

/-!
Verification of the resilient async HTTP client core in
`src/network_test/network.py`: circuit breaker, TTL cache, cache-key
generation, retry-with-backoff orchestration, response parsing and
telemetry. Each component is shallowly embedded as an executable Lean
definition translated from the Python source; timestamps are modelled
as rationals, Python exceptions as `Except`, and the per-attempt
transport as an explicit outcome script.
-/

namespace NetworkTest

instance {ε α : Type} [DecidableEq ε] [DecidableEq α] :
    DecidableEq (Except ε α) := fun a b =>
  match a, b with
  | .ok x, .ok y => decidable_of_iff (x = y) (by simp)
  | .error x, .error y => decidable_of_iff (x = y) (by simp)
  | .ok _, .error _ => isFalse (by simp)
  | .error _, .ok _ => isFalse (by simp)

/- ===================== CircuitBreaker (network.py lines 220-389) ==== -/

/-- The three circuit breaker states, as in `CircuitBreaker.state`. -/
inductive CBState where
  | CLOSED
  | OPEN
  | HALF_OPEN
deriving DecidableEq, Repr

/-- State of a `CircuitBreaker` instance: configuration fields
`failure_threshold` and `recovery_timeout`, and the mutable fields
`failure_count`, `last_failure_time`, `state` (network.py 280-309). -/
structure CircuitBreaker where
  failure_threshold : ℕ
  recovery_timeout : ℚ
  failure_count : ℕ
  last_failure_time : ℚ
  state : CBState
deriving DecidableEq, Repr

/-- `CircuitBreaker.__init__`: failure_count 0, last_failure_time 0,
state CLOSED (network.py 296-306). -/
def CircuitBreaker.init (ft : ℕ) (rt : ℚ) : CircuitBreaker :=
  { failure_threshold := ft
    recovery_timeout := rt
    failure_count := 0
    last_failure_time := 0
    state := .CLOSED }

/-- Errors surfaced by `CircuitBreaker.call`: either the
`CircuitBreakerOpenError` raised while the circuit is open (carrying the
failure count and the remaining cooldown printed in its message,
network.py 359-362), or the re-raised exception of the wrapped function
(network.py 389). -/
inductive CBError (ε : Type) where
  | circuitOpen (failCount : ℕ) (remaining : ℚ)
  | wrapped (e : ε)
deriving DecidableEq, Repr

/-- Result of one `CircuitBreaker.call`: the breaker state afterwards,
the returned value or raised error, and, when the wrapped function was
invoked, the breaker state at the moment of invocation (`none` means the
call was rejected without invoking the function). -/
structure CBCallResult (ε α : Type) where
  cb : CircuitBreaker
  result : Except (CBError ε) α
  stateDuringCall : Option CBState

/-- Body of `CircuitBreaker.call` after the OPEN check: run the wrapped
function (its outcome is supplied as an `Except`), then do the success or
failure bookkeeping of network.py 364-389. `now2` is the `time.time()`
read in the failure handler (line 378). -/
def CircuitBreaker.runWrapped {ε α : Type} (cb : CircuitBreaker)
    (outcome : Except ε α) (now2 : ℚ) : CBCallResult ε α :=
  match outcome with
  | .ok v =>
      -- success: if we were testing (HALF_OPEN), go back to CLOSED (369-371)
      if cb.state = .HALF_OPEN then
        ⟨{ cb with state := .CLOSED, failure_count := 0 }, .ok v, some cb.state⟩
      else
        ⟨cb, .ok v, some cb.state⟩
  | .error e =>
      -- failure: count it, record the time, open at the threshold (375-386)
      let fc := cb.failure_count + 1
      ⟨{ cb with
          failure_count := fc
          last_failure_time := now2
          state := if cb.failure_threshold ≤ fc then .OPEN else cb.state },
        .error (.wrapped e), some cb.state⟩

/-- `CircuitBreaker.call` (network.py 348-389). `now1` is the
`time.time()` read in the OPEN check (line 351); `outcome` is what the
wrapped function would do if invoked; `now2` is the `time.time()` read
when recording a failure. -/
def CircuitBreaker.call {ε α : Type} (cb : CircuitBreaker) (now1 : ℚ)
    (outcome : Except ε α) (now2 : ℚ) : CBCallResult ε α :=
  if cb.state = .OPEN then
    let timeSinceFailure := now1 - cb.last_failure_time
    if cb.recovery_timeout ≤ timeSinceFailure then
      -- enough time has passed, try one test request (354-356)
      CircuitBreaker.runWrapped { cb with state := .HALF_OPEN } outcome now2
    else
      -- still in the timeout period, block the request (357-362)
      ⟨cb, .error (.circuitOpen cb.failure_count
          (cb.recovery_timeout - timeSinceFailure)), none⟩
  else
    CircuitBreaker.runWrapped cb outcome now2

/-- Breaker states reachable from a freshly constructed
`CircuitBreaker(ft, rt)` by any sequence of `call` invocations, with
arbitrary clock readings and wrapped-function outcomes. -/
inductive CircuitBreaker.Reachable (ft : ℕ) (rt : ℚ) : CircuitBreaker → Prop where
  | init : Reachable ft rt (CircuitBreaker.init ft rt)
  | step {ε α : Type} (cb : CircuitBreaker) (now1 : ℚ) (outcome : Except ε α)
      (now2 : ℚ) : Reachable ft rt cb →
      Reachable ft rt (CircuitBreaker.call cb now1 outcome now2).cb

/- ===================== CircuitBreaker.call lock scope (C9) ========== -/

/-- Events of one `CircuitBreaker.call` execution that matter for lock
scope: the `async with self._lock` acquire and release, the rejection
raise, the invocation and return of the wrapped function, and the
success or failure bookkeeping. -/
inductive LockEvent where
  | acquire
  | raiseOpen
  | invokeWrapped
  | wrappedReturned
  | recordResult
  | release
deriving DecidableEq, Repr

/-- Event trace of one `CircuitBreaker.call` (network.py 348-389). The
single `async with self._lock:` block at line 348 encloses the whole
body, so the lock is released only when the body returns or an exception
propagates out; in particular `await func(...)` at line 366 runs between
the acquire and the release, whichever way the wrapped call ends. -/
def CircuitBreaker.callTrace (cb : CircuitBreaker) (now1 : ℚ) :
    List LockEvent :=
  if cb.state = .OPEN ∧ now1 - cb.last_failure_time < cb.recovery_timeout then
    [.acquire, .raiseOpen, .release]
  else
    [.acquire, .invokeWrapped, .wrappedReturned, .recordResult, .release]

/-- True when some `invokeWrapped` event occurs while the lock depth is
positive, that is, while the breaker lock is held. -/
def invokedUnderLock : List LockEvent → ℕ → Bool
  | [], _ => false
  | .acquire :: rest, d => invokedUnderLock rest (d + 1)
  | .release :: rest, d => invokedUnderLock rest (d - 1)
  | .invokeWrapped :: rest, d => decide (0 < d) || invokedUnderLock rest d
  | _ :: rest, d => invokedUnderLock rest d

/-- True when some `invokeWrapped` event occurs while the lock depth is
zero, that is, with the breaker lock released (what the specification
describes). -/
def invokedOutsideLock : List LockEvent → ℕ → Bool
  | [], _ => false
  | .acquire :: rest, d => invokedOutsideLock rest (d + 1)
  | .release :: rest, d => invokedOutsideLock rest (d - 1)
  | .invokeWrapped :: rest, d => decide (d = 0) || invokedOutsideLock rest d
  | _ :: rest, d => invokedOutsideLock rest d

/- ===================== AsyncCache (network.py lines 392-593) ======== -/

/-- State of an `AsyncCache` instance: the `default_ttl` and the
`_cache` dictionary mapping keys to `(value, expiry_timestamp)` pairs
(network.py 448-467). The Python dict is modelled as a function to
`Option`. -/
structure AsyncCache (V : Type) where
  default_ttl : ℚ
  store : String → Option (V × ℚ)

/-- `AsyncCache.get` (network.py 478-513), with the `time.time()` read
passed in as `now`: on a fresh entry return the value; on an expired
entry delete it and return `None`; on a missing key return `None`. The
returned pair is the cache state afterwards and the Python return
value. -/
def AsyncCache.get {V : Type} (c : AsyncCache V) (k : String) (now : ℚ) :
    AsyncCache V × Option V :=
  match c.store k with
  | some (v, expiry) =>
      if now < expiry then
        (c, some v)  -- cache hit, return fresh data (506-507)
      else
        -- data expired, remove it and act like it never existed (510)
        ({ c with store := fun k' => if k' = k then none else c.store k' }, none)
  | none => (c, none)

/-- `AsyncCache.set` (network.py 515-540), with the `time.time()` read
passed in as `now`. The line `ttl = ttl or self.default_ttl` replaces
both `None` and the falsy `0` by the default TTL; the entry is then
stored at `now + ttl`, overwriting any prior entry for the key. -/
def AsyncCache.set {V : Type} (c : AsyncCache V) (k : String) (v : V)
    (ttl : Option ℚ) (now : ℚ) : AsyncCache V :=
  let t : ℚ :=
    match ttl with
    | none => c.default_ttl
    | some t => if t = 0 then c.default_ttl else t
  { c with store := fun k' => if k' = k then some (v, now + t) else c.store k' }

/- ============ Cache key generation (network.py lines 921-955) ======= -/

/-- The single-quote character used by Python string repr. -/
def quoteChar : Char := Char.ofNat 39

/-- The double-quote character used by Python string repr. -/
def dquoteChar : Char := Char.ofNat 34

/-- The backslash character used by Python repr escaping. -/
def backslashChar : Char := Char.ofNat 92

/-- The opening square bracket of a Python list repr. -/
def lbrackChar : Char := Char.ofNat 91

/-- The closing square bracket of a Python list repr. -/
def rbrackChar : Char := Char.ofNat 93

/-- The opening curly brace character. -/
def lbraceChar : Char := Char.ofNat 123

/-- Python repr escaping of a string body for the chosen quote
character `q`: a backslash is put before every backslash and before
every occurrence of `q`. -/
def escL (q : Char) : List Char → List Char
  | [] => []
  | c :: cs =>
      if c = backslashChar ∨ c = q then backslashChar :: c :: escL q cs
      else c :: escL q cs

/-- Python `repr` of a string (printable characters): single-quoted,
except double-quoted when the string contains a single quote and no
double quote; the quote character and backslashes are escaped. -/
def reprStrL (s : List Char) : List Char :=
  if quoteChar ∈ s ∧ ¬ dquoteChar ∈ s then
    dquoteChar :: (escL dquoteChar s ++ [dquoteChar])
  else
    quoteChar :: (escL quoteChar s ++ [quoteChar])

/-- Python `repr` of a pair of strings: `(repr k, repr v)`. -/
def reprPairL (p : List Char × List Char) : List Char :=
  '(' :: (reprStrL p.1 ++ ',' :: ' ' :: (reprStrL p.2 ++ [')']))

/-- Python `", ".join` over the reprs of the list items. -/
def reprItemsL : List (List Char × List Char) → List Char
  | [] => []
  | p :: ps =>
      reprPairL p ++ (if ps = [] then [] else ',' :: ' ' :: reprItemsL ps)

/-- Python `str` of a list of pairs of strings, as produced by
`str(sorted_params)` at network.py 954: the item reprs joined by `", "`
inside square brackets. -/
def reprListL (l : List (List Char × List Char)) : List Char :=
  lbrackChar :: (reprItemsL l ++ [rbrackChar])

/-- Inverse of `escL` up to the closing quote: scans an escaped body,
returning the decoded content and the remainder after the first
unescaped occurrence of `q`. Used only to prove `reprStrL` injective. -/
def unescape (q : Char) : List Char → Option (List Char × List Char)
  | [] => none
  | c :: rest =>
      if c = q then some ([], rest)
      else if c = backslashChar then
        match rest with
        | [] => none
        | d :: rest2 =>
            match unescape q rest2 with
            | some pr => some (d :: pr.1, pr.2)
            | none => none
      else
        match unescape q rest with
        | some pr => some (c :: pr.1, pr.2)
        | none => none

/-- Parses one Python string repr from the front of a character list,
returning the denoted string and the remainder. -/
def parseStr (l : List Char) : Option (List Char × List Char) :=
  match l with
  | [] => none
  | c :: rest => if c = quoteChar ∨ c = dquoteChar then unescape c rest else none

/-- Parses one pair repr `(repr k, repr v)` from the front of a
character list, returning the pair and the remainder. -/
def parsePair (l : List Char) : Option ((List Char × List Char) × List Char) :=
  match l with
  | '(' :: rest =>
      match parseStr rest with
      | some (k, rest1) =>
          match rest1 with
          | ',' :: ' ' :: rest2 =>
              match parseStr rest2 with
              | some (v, rest3) =>
                  match rest3 with
                  | ')' :: rest4 => some ((k, v), rest4)
                  | _ => none
              | none => none
          | _ => none
      | none => none
  | _ => none

/-- The order by which Python `sorted(params.items())` sorts the
key-value tuples: lexicographic comparison, first by key, then by
value. -/
def pairRel (p q : String × String) : Prop :=
  p.1 < q.1 ∨ (p.1 = q.1 ∧ p.2 ≤ q.2)

instance : DecidableRel pairRel := fun p q => by
  unfold pairRel; exact inferInstance

instance : IsTrans (String × String) pairRel := ⟨by
  rintro a b c (h1 | ⟨h1, h1v⟩) (h2 | ⟨h2, h2v⟩)
  · exact Or.inl (lt_trans h1 h2)
  · exact Or.inl (by rw [← h2]; exact h1)
  · exact Or.inl (by rw [h1]; exact h2)
  · exact Or.inr ⟨h1.trans h2, le_trans h1v h2v⟩⟩

instance : IsTotal (String × String) pairRel := ⟨by
  intro a b
  rcases lt_trichotomy a.1 b.1 with h | h | h
  · exact Or.inl (Or.inl h)
  · rcases le_total a.2 b.2 with hv | hv
    · exact Or.inl (Or.inr ⟨h, hv⟩)
    · exact Or.inr (Or.inr ⟨h.symm, hv⟩)
  · exact Or.inr (Or.inl h)⟩

instance : IsAntisymm (String × String) pairRel := ⟨by
  rintro a b (h1 | ⟨h1, h1v⟩) (h2 | ⟨h2, h2v⟩)
  · exact absurd h2 (lt_asymm h1)
  · exact absurd (h2 ▸ h1) (lt_irrefl _)
  · exact absurd (h1 ▸ h2) (lt_irrefl _)
  · exact Prod.ext h1 (le_antisymm h1v h2v)⟩

/-- Python `sorted(params.items())` (network.py 953): the key-value
pairs sorted by the lexicographic tuple order. -/
def sortPairs (l : List (String × String)) : List (String × String) :=
  l.insertionSort pairRel

/-- Python `str(sorted_params)` as a `String`-level function. -/
def pyStrParams (l : List (String × String)) : String :=
  ⟨reprListL (l.map fun p => (p.1.data, p.2.data))⟩

/-- Python `str.upper()` for ASCII strings. -/
def pyUpper (s : String) : String :=
  ⟨s.data.map Char.toUpper⟩

/-- Python `str.lower()` for ASCII strings. -/
def pyLower (s : String) : String :=
  ⟨s.data.map Char.toLower⟩

/-- Python `":".join(key_parts)` (network.py 955). -/
def joinColon : List String → String
  | [] => ""
  | [x] => x
  | x :: xs => x ++ ":" ++ joinColon xs

/-- `AsyncNetworkClient._generate_cache_key` (network.py 921-955):
`method.upper()` and the url, plus `str(sorted(params.items()))` when
the params dict is nonempty, joined by `":"`. The params dict is
modelled by its item list. -/
def generate_cache_key (method url : String)
    (params : List (String × String)) : String :=
  let key_parts : List String := [pyUpper method, url]
  let key_parts :=
    if params = [] then key_parts
    else key_parts ++ [pyStrParams (sortPairs params)]
  joinColon key_parts

/- ============ Retry and telemetry (network.py 957-1174) ============= -/

/-- What the transport (`session.request` plus reading the body) does on
one attempt: either an HTTP response with a status code and body text,
or a connection/timeout-level failure raised before any response. -/
inductive TransportOutcome where
  | resp (status : ℕ) (text : String)
  | netError
deriving DecidableEq, Repr

/-- Exceptions flowing out of `_make_request_with_retry`:
`aiohttp.ClientResponseError` raised by `response.raise_for_status()`
(carrying the status), a connection/timeout-level `aiohttp` error, or
the defensive generic `ClientError` of network.py 1174. -/
inductive ReqError where
  | httpError (status : ℕ)
  | transportError
  | genericClientError
deriving DecidableEq, Repr

/-- One entry of the telemetry ring buffer appended by `_log_request`
(network.py 1017-1026): the method, url, status code (0 when no
response was received) and the error, if any. The wall-clock timestamp
and duration fields are carried by the real record but are not modelled
(they never feed control flow). -/
structure LogRecord where
  method : String
  url : String
  status : ℕ
  error : Option ReqError
deriving DecidableEq, Repr

/-- The monitoring counters and ring buffer owned by
`AsyncNetworkClient` (network.py 763-768). -/
structure ClientState where
  request_count : ℕ
  error_count : ℕ
  last_requests : List LogRecord
deriving DecidableEq, Repr

/-- The client state of a freshly constructed `AsyncNetworkClient`. -/
def ClientState.initial : ClientState := ⟨0, 0, []⟩

/-- `AsyncNetworkClient._log_request` (network.py 1011-1026): increment
`request_count` on every call, increment `error_count` when an error is
passed, and append one record to the `deque(maxlen=100)` ring buffer
(oldest entries dropped beyond 100). -/
def log_request (st : ClientState) (method url : String) (status : ℕ)
    (error : Option ReqError) : ClientState :=
  let buf := st.last_requests ++ [⟨method, url, status, error⟩]
  { request_count := st.request_count + 1
    error_count := if error.isSome then st.error_count + 1 else st.error_count
    last_requests := buf.drop (buf.length - 100) }

/-- Result of `_make_request_with_retry`: the returned body text or the
raised exception, the client state afterwards, the number of transport
attempts actually made, and the backoff sleeps (in seconds) performed
between attempts. -/
structure RetryResult where
  response : Except ReqError String
  state : ClientState
  attempts : ℕ
  sleeps : List ℕ
deriving DecidableEq, Repr

/-- One pass of the `for attempt in range(self.max_retries + 1)` loop of
`_make_request_with_retry` (network.py 1096-1174). `script i` is what
the transport does on attempt `i`; `fuel` counts the loop iterations
still available (`max_retries + 1 - i`); `lastErr` is
`last_exception`. Per iteration: on a received response the status line
is logged (1112), then `raise_for_status` raises for status >= 400
(1116); an exception is logged with status 0 (1136), a 4xx breaks out of
the loop at once (1143-1147), otherwise the attempt sleeps
`min(2 ** attempt, 30)` seconds and retries while attempts remain
(1151-1167); when the loop ends the last exception is re-raised
(1170-1174). -/
def retryAux (max_retries : ℕ) (script : ℕ → TransportOutcome)
    (method url : String) : (fuel : ℕ) → (i : ℕ) → (lastErr : Option ReqError) →
    ClientState → (attempts : ℕ) → (sleeps : List ℕ) → RetryResult
  | 0, _, lastErr, st, attempts, sleeps =>
      -- loop over: raise last_exception, or a generic ClientError (1170-1174)
      ⟨.error (lastErr.getD .genericClientError), st, attempts, sleeps⟩
  | fuel + 1, i, _, st, attempts, sleeps =>
      match script i with
      | .resp status text =>
          let st := log_request st method url status none
          if 400 ≤ status then
            -- raise_for_status raises ClientResponseError(status)
            let e := ReqError.httpError status
            let st := log_request st method url 0 (some e)
            if status < 500 then
              -- 4xx: client mistake, do not retry, break (1143-1147)
              ⟨.error e, st, attempts + 1, sleeps⟩
            else if i < max_retries then
              retryAux max_retries script method url fuel (i + 1) (some e) st
                (attempts + 1) (sleeps ++ [min (2 ^ i) 30])
            else
              ⟨.error e, st, attempts + 1, sleeps⟩
          else
            -- success: return the response body (1119-1127)
            ⟨.ok text, st, attempts + 1, sleeps⟩
      | .netError =>
          let e := ReqError.transportError
          let st := log_request st method url 0 (some e)
          if i < max_retries then
            retryAux max_retries script method url fuel (i + 1) (some e) st
              (attempts + 1) (sleeps ++ [min (2 ^ i) 30])
          else
            ⟨.error e, st, attempts + 1, sleeps⟩

/-- `AsyncNetworkClient._make_request_with_retry` (network.py
1037-1174), as a function of the transport behaviour script. The rate
limiter `acquire()` before each attempt never raises and does not touch
the modelled state. -/
def make_request_with_retry (max_retries : ℕ) (script : ℕ → TransportOutcome)
    (method url : String) (st : ClientState) : RetryResult :=
  retryAux max_retries script method url (max_retries + 1) 0 none st 0 []

/-- Whether a transport outcome is one the retry loop treats as
retryable: an HTTP response with status at least 500, or a
connection/timeout-level error (network.py 1141-1148). -/
def retryableB : TransportOutcome → Bool
  | .resp status _ => 500 ≤ status
  | .netError => true

/-- The exception recorded as `last_exception` for a failed attempt. -/
def errOf : TransportOutcome → ReqError
  | .resp status _ => .httpError status
  | .netError => .transportError

/- ============ Response parsing and caching (network.py 1347-1383) === -/

/-- Value returned to the caller by `AsyncNetworkClient.request` after
the transport succeeded: `None` for an empty or whitespace-only body,
the parsed JSON value, or the raw body text fallback. -/
inductive RequestReturn (J : Type) where
  | noneEmpty
  | json (j : J)
  | raw (t : String)
deriving DecidableEq, Repr

/-- Python `str.isspace`-style whitespace as used by `str.strip()`. -/
def pyIsSpace (c : Char) : Bool :=
  c == ' ' || c == Char.ofNat 9 || c == Char.ofNat 10 || c == Char.ofNat 13 ||
    c == Char.ofNat 11 || c == Char.ofNat 12

/-- Python `str.strip()`: remove whitespace from both ends. -/
def pyStrip (s : String) : String :=
  ⟨((s.data.dropWhile pyIsSpace).reverse.dropWhile pyIsSpace).reverse⟩

/-- Python `needle in haystack` on strings: substring test. -/
def substrB (needle : List Char) : List Char → Bool
  | [] => needle.isEmpty
  | c :: rest => needle.isPrefixOf (c :: rest) || substrB needle rest

/-- Python `s.startswith(("{", "["))` on the stripped body: whether the
first character is an opening brace or bracket. -/
def startsJsonLike (s : String) : Bool :=
  match s.data with
  | [] => false
  | c :: _ => c == lbraceChar || c == lbrackChar

/-- Steps 4 and 5 of `AsyncNetworkClient.request` (network.py
1347-1383), given the successful transport response body and
content-type header. `parse` models `json.loads` (`none` when it
raises). Returns the value `request` returns together with the cache
store it performs, if any: an empty body returns `None` at 1355 before
the cache step; a failed parse returns the raw text at 1370 before the
cache step; a non-JSON content type returns the raw text at 1374 before
the cache step; only a successfully parsed body reaches step 5, which
stores it under the cache key when the request is a cache-enabled
GET. -/
def request_finish {J : Type} (parse : String → Option J)
    (method url : String) (params : List (String × String))
    (use_cache : Bool) (text_response content_type : String) :
    RequestReturn J × Option (String × RequestReturn J) :=
  if (pyStrip text_response).data.isEmpty then
    (.noneEmpty, none)
  else if substrB "application/json".data (pyLower content_type).data ||
      substrB "application/javascript".data (pyLower content_type).data ||
      startsJsonLike (pyStrip text_response) then
    match parse text_response with
    | some j =>
        if pyUpper method = "GET" ∧ use_cache then
          (.json j, some (generate_cache_key method url params, .json j))
        else
          (.json j, none)
    | none => (.raw text_response, none)
  else
    (.raw text_response, none)

/- ======================= Theorems =================================== -/

/-- Configuration fields never change, and away from CLOSED the failure
count has reached the threshold: the circuit only opens at the
threshold, HALF_OPEN keeps the count of the OPEN state it came from, and
the count only resets on the transition back to CLOSED. -/
theorem cb_reachable_invariant (ft : ℕ) (rt : ℚ) (cb : CircuitBreaker)
    (h : CircuitBreaker.Reachable ft rt cb) :
    cb.failure_threshold = ft ∧ cb.recovery_timeout = rt ∧
      (cb.state ≠ .CLOSED → ft ≤ cb.failure_count) := by
  induction h with
  | init => simp [CircuitBreaker.init]
  | step cb now1 outcome now2 _ ih =>
      obtain ⟨hft, hrt, hinv⟩ := ih
      subst hft
      subst hrt
      by_cases h1 : cb.state = .OPEN
      · by_cases h2 : cb.recovery_timeout ≤ now1 - cb.last_failure_time
        · have hfc : cb.failure_threshold ≤ cb.failure_count :=
            hinv (by simp [h1])
          cases outcome with
          | ok v => simp [CircuitBreaker.call, CircuitBreaker.runWrapped, h1, h2]
          | error e =>
              simp [CircuitBreaker.call, CircuitBreaker.runWrapped, h1, h2]
              intro _
              omega
        · simp [CircuitBreaker.call, h1, h2]
          exact hinv (by simp [h1])
      · cases outcome with
        | ok v =>
            by_cases h3 : cb.state = .HALF_OPEN
            · simp [CircuitBreaker.call, CircuitBreaker.runWrapped, h1, h3]
            · simp [CircuitBreaker.call, CircuitBreaker.runWrapped, h1, h3]
              exact hinv
        | error e =>
            by_cases h4 : cb.failure_threshold ≤ cb.failure_count + 1
            · simp [CircuitBreaker.call, CircuitBreaker.runWrapped, h1, h4]
            · simp [CircuitBreaker.call, CircuitBreaker.runWrapped, h1, h4]
              by_contra hne
              exact h4 (le_trans (hinv hne) (Nat.le_succ _))

/-- C3: while the circuit breaker is OPEN and `now - lastFailureTime <
recoveryTimeout`, `CircuitBreaker.call` raises a circuit-open error
carrying the remaining cooldown time, without invoking the wrapped
function and without changing the breaker state. -/
theorem circuit_open_rejects {ε α : Type} (cb : CircuitBreaker)
    (now1 now2 : ℚ) (outcome : Except ε α)
    (hs : cb.state = .OPEN)
    (ht : now1 - cb.last_failure_time < cb.recovery_timeout) :
    cb.call now1 outcome now2 =
      ⟨cb, .error (.circuitOpen cb.failure_count
        (cb.recovery_timeout - (now1 - cb.last_failure_time))), none⟩ := by
  unfold CircuitBreaker.call
  rw [if_pos hs, if_neg (not_le.mpr ht)]

/-- Witness for C3 at a concrete OPEN breaker: the call 10 seconds after
the last failure of a breaker with a 60 second recovery timeout is
rejected with 50 seconds remaining, the state is untouched and the
wrapped function is not invoked. -/
theorem circuit_open_rejects_witness :
    (CircuitBreaker.call (ε := Unit) (α := Unit)
        ⟨5, 60, 5, 0, .OPEN⟩ 10 (.ok ()) 10).cb = ⟨5, 60, 5, 0, .OPEN⟩ ∧
    (CircuitBreaker.call (ε := Unit) (α := Unit)
        ⟨5, 60, 5, 0, .OPEN⟩ 10 (.ok ()) 10).result =
      .error (.circuitOpen 5 50) ∧
    (CircuitBreaker.call (ε := Unit) (α := Unit)
        ⟨5, 60, 5, 0, .OPEN⟩ 10 (.ok ()) 10).stateDuringCall = none := by
  have h := circuit_open_rejects (ε := Unit) (α := Unit)
    ⟨5, 60, 5, 0, .OPEN⟩ 10 10 (.ok ()) rfl (by norm_num)
  rw [h]
  refine ⟨rfl, ?_, rfl⟩
  norm_num

/-- C4: when the breaker is OPEN and the recovery timeout has elapsed,
the next call invokes the wrapped function as a probe in state
HALF_OPEN; a successful probe moves the breaker to CLOSED with
failureCount reset to 0, and a failed probe moves it back to OPEN — for
every breaker state reachable from construction. -/
theorem half_open_probe {ε α : Type} (ft : ℕ) (rt : ℚ) (cb : CircuitBreaker)
    (hreach : CircuitBreaker.Reachable ft rt cb)
    (hs : cb.state = .OPEN) (now1 now2 : ℚ)
    (ht : cb.recovery_timeout ≤ now1 - cb.last_failure_time)
    (outcome : Except ε α) :
    (cb.call now1 outcome now2).stateDuringCall = some .HALF_OPEN ∧
    (∀ v, outcome = .ok v →
      (cb.call now1 outcome now2).cb.state = .CLOSED ∧
      (cb.call now1 outcome now2).cb.failure_count = 0 ∧
      (cb.call now1 outcome now2).result = .ok v) ∧
    (∀ e, outcome = .error e →
      (cb.call now1 outcome now2).cb.state = .OPEN ∧
      (cb.call now1 outcome now2).result = .error (.wrapped e)) := by
  have hfc : cb.failure_threshold ≤ cb.failure_count := by
    obtain ⟨hft, _, hinv⟩ := cb_reachable_invariant ft rt cb hreach
    rw [hft]
    exact hinv (by simp [hs])
  unfold CircuitBreaker.call
  rw [if_pos hs, if_pos ht]
  cases outcome with
  | ok v =>
      refine ⟨rfl, fun w hw => ?_, fun e he => by simp at he⟩
      obtain rfl : v = w := by simpa using hw
      exact ⟨by simp [CircuitBreaker.runWrapped], by
        simp [CircuitBreaker.runWrapped], by simp [CircuitBreaker.runWrapped]⟩
  | error e =>
      refine ⟨rfl, fun w hw => by simp at hw, fun e2 he2 => ?_⟩
      obtain rfl : e = e2 := by simpa using he2
      constructor
      · show (if cb.failure_threshold ≤ cb.failure_count + 1 then
            CBState.OPEN else CBState.HALF_OPEN) = CBState.OPEN
        rw [if_pos (le_trans hfc (Nat.le_succ _))]
      · rfl

/-- Witness for C4: with threshold 1, one failing call from the initial
state opens the breaker; 60 seconds later a call carrying a successful
probe runs in HALF_OPEN and leaves the breaker CLOSED with
failure count 0 and the probe result returned. -/
theorem half_open_probe_witness :
    ((((CircuitBreaker.init 1 60).call (ε := Unit) (α := ℕ)
        0 (.error ()) 0).cb).call (ε := Unit) (α := ℕ)
        60 (.ok 7) 61).stateDuringCall = some .HALF_OPEN ∧
    ((((CircuitBreaker.init 1 60).call (ε := Unit) (α := ℕ)
        0 (.error ()) 0).cb).call (ε := Unit) (α := ℕ)
        60 (.ok 7) 61).cb.state = .CLOSED ∧
    ((((CircuitBreaker.init 1 60).call (ε := Unit) (α := ℕ)
        0 (.error ()) 0).cb).call (ε := Unit) (α := ℕ)
        60 (.ok 7) 61).cb.failure_count = 0 ∧
    ((((CircuitBreaker.init 1 60).call (ε := Unit) (α := ℕ)
        0 (.error ()) 0).cb).call (ε := Unit) (α := ℕ)
        60 (.ok 7) 61).result = .ok 7 := by
  have hreach : CircuitBreaker.Reachable 1 60
      (((CircuitBreaker.init 1 60).call (ε := Unit) (α := ℕ)
        0 (.error ()) 0).cb) :=
    .step _ 0 (.error ()) 0 .init
  have h := half_open_probe (ε := Unit) (α := ℕ) 1 60 _ hreach (by decide)
    60 61 (by show (60 : ℚ) ≤ 60 - 0; norm_num) (.ok 7)
  obtain ⟨h1, h2, _⟩ := h
  obtain ⟨h3, h4, h5⟩ := h2 7 rfl
  exact ⟨h1, h3, h4, h5⟩

/-- C9: the claim that the breaker lock is released before the wrapped
call fails on the code: the single `async with self._lock` block of
`CircuitBreaker.call` encloses the `await func(...)`, so for a CLOSED
breaker (initial state) the trace invokes the wrapped function at lock
depth 1 and never at lock depth 0, serializing the wrapped I/O of
concurrent calls. -/
theorem breaker_lock_held_during_call :
    CircuitBreaker.callTrace (CircuitBreaker.init 5 60) 0 =
      [.acquire, .invokeWrapped, .wrappedReturned, .recordResult, .release] ∧
    invokedUnderLock (CircuitBreaker.callTrace (CircuitBreaker.init 5 60) 0) 0
      = true ∧
    invokedOutsideLock (CircuitBreaker.callTrace (CircuitBreaker.init 5 60) 0) 0
      = false := by
  refine ⟨?_, ?_, ?_⟩ <;> decide

/-- C6: `AsyncCache.get` returns the stored value exactly when an entry
is present and the current time is strictly before its expiry; a present
but expired entry is deleted and not-found is returned; `set` with a
positive TTL followed by an immediate `get` returns the value, and a
`get` after the TTL has elapsed returns not-found. -/
theorem cache_get_ttl {V : Type} (c : AsyncCache V) (k : String) (now : ℚ) :
    (∀ v : V, (c.get k now).2 = some v ↔
      ∃ e, c.store k = some (v, e) ∧ now < e) ∧
    (∀ (v : V) (e : ℚ), c.store k = some (v, e) → ¬ now < e →
      (c.get k now).2 = none ∧ (c.get k now).1.store k = none) ∧
    (∀ (v : V) (t : ℚ), 0 < t →
      ((c.set k v (some t) now).get k now).2 = some v) ∧
    (∀ (v : V) (t d : ℚ), 0 < t → t ≤ d →
      ((c.set k v (some t) now).get k (now + d)).2 = none) := by
  refine ⟨fun v => ?_, fun v e hst hexp => ?_, fun v t ht => ?_,
    fun v t d ht htd => ?_⟩
  · unfold AsyncCache.get
    cases hst : c.store k with
    | none => simp
    | some ve =>
        obtain ⟨v2, e⟩ := ve
        dsimp only
        by_cases hlt : now < e
        · rw [if_pos hlt]
          constructor
          · intro h
            have hv : v2 = v := by simpa using h
            exact ⟨e, by rw [hv], hlt⟩
          · rintro ⟨e2, he2, _⟩
            simp only [Option.some.injEq, Prod.mk.injEq] at he2
            simp [he2.1]
        · rw [if_neg hlt]
          constructor
          · intro h
            simp at h
          · rintro ⟨e2, he2, hc⟩
            simp only [Option.some.injEq, Prod.mk.injEq] at he2
            exact absurd (he2.2 ▸ hc) hlt
  · unfold AsyncCache.get
    rw [hst]
    dsimp only
    rw [if_neg hexp]
    exact ⟨rfl, by simp⟩
  · have hne : t ≠ 0 := ne_of_gt ht
    simp [AsyncCache.set, AsyncCache.get, hne, lt_add_iff_pos_right, ht]
  · have hne : t ≠ 0 := ne_of_gt ht
    have hnd : ¬ (now + d < now + t) := by
      rw [add_lt_add_iff_left]
      exact not_lt.mpr htd
    simp [AsyncCache.set, AsyncCache.get, hne, hnd]

/-- Witness for C6: in an empty cache, `set("k", 5, ttl=1)` at time 0
followed by an immediate `get` returns 5, and the same `get` at time 1.1
returns not-found. -/
theorem cache_get_ttl_witness :
    (((⟨300, fun _ => none⟩ : AsyncCache ℕ).set "k" 5 (some 1) 0).get
        "k" 0).2 = some 5 ∧
    (((⟨300, fun _ => none⟩ : AsyncCache ℕ).set "k" 5 (some 1) 0).get
        "k" (0 + 11 / 10)).2 = none := by
  have h := cache_get_ttl (V := ℕ) ⟨300, fun _ => none⟩ "k" 0
  exact ⟨h.2.2.1 5 1 (by norm_num), h.2.2.2 5 1 (11 / 10) (by norm_num)
    (by norm_num)⟩

/-- C7 counterexample: the claim says the stored expiry equals the
current time plus exactly the TTL the caller supplied, for every TTL
argument; with the supplied TTL 0 the line `ttl = ttl or
self.default_ttl` replaces 0 by the default (300 here), so the entry
stored at time 0 carries expiry 300, not 0 + 0. -/
theorem cache_set_zero_ttl_counterexample :
    ((⟨300, fun _ => none⟩ : AsyncCache ℕ).set "k" 1 (some 0) 0).store "k" =
      some (1, 300) ∧
    ((⟨300, fun _ => none⟩ : AsyncCache ℕ).set "k" 1 (some 0) 0).store "k" ≠
      some (1, 0 + 0) := by
  constructor
  · show (if ("k" : String) = "k" then some ((1 : ℕ), (0 : ℚ) + 300)
      else none) = some (1, 300)
    rw [if_pos rfl]
    norm_num
  · show (if ("k" : String) = "k" then some ((1 : ℕ), (0 : ℚ) + 300)
      else none) ≠ some (1, 0 + 0)
    rw [if_pos rfl]
    intro h
    simp only [Option.some.injEq, Prod.mk.injEq] at h
    have := h.2
    norm_num at this

/-- C7 as amended: `AsyncCache.set` stores `(value, now + ttl)` and
overwrites any prior entry for the key, for every supplied TTL that is
neither `None` nor `0`; when the TTL is `None` or `0`, the default TTL
is used instead. Other keys are untouched. -/
theorem cache_set_stores {V : Type} (c : AsyncCache V) (k : String) (v : V)
    (now : ℚ) :
    (∀ t : ℚ, t ≠ 0 →
      (c.set k v (some t) now).store k = some (v, now + t) ∧
      ∀ k2, k2 ≠ k → (c.set k v (some t) now).store k2 = c.store k2) ∧
    (c.set k v none now).store k = some (v, now + c.default_ttl) ∧
    (c.set k v (some 0) now).store k = some (v, now + c.default_ttl) := by
  refine ⟨fun t ht => ⟨?_, fun k2 hk2 => ?_⟩, ?_, ?_⟩
  · simp [AsyncCache.set, ht]
  · simp [AsyncCache.set, ht, hk2]
  · simp [AsyncCache.set]
  · simp [AsyncCache.set]

/-- Witness for C7 (amended): with default TTL 300, storing at time 2
with TTL 7 yields expiry 9, leaves the other key untouched, and storing
with TTL `None` yields expiry 302. -/
theorem cache_set_stores_witness :
    ((⟨300, fun _ => none⟩ : AsyncCache ℕ).set "k" 5 (some 7) 2).store "k" =
      some (5, 2 + 7) ∧
    ((⟨300, fun _ => none⟩ : AsyncCache ℕ).set "k" 5 (some 7) 2).store "x" =
      none ∧
    ((⟨300, fun _ => none⟩ : AsyncCache ℕ).set "k" 5 none 2).store "k" =
      some (5, 2 + 300) := by
  have h := cache_set_stores (V := ℕ) ⟨300, fun _ => none⟩ "k" 5 2
  obtain ⟨h1, h2⟩ := h.1 7 (by norm_num)
  exact ⟨h1, h2 "x" (by decide), h.2.1⟩

/-- C1 counterexample: for `maxRetries = 2` and a transport that fails
twice with HTTP 500 and then succeeds, the logical request does return
the successful body, but `_log_request` runs once for every received
response (network.py 1112) and once more for every raised exception
(network.py 1136), each call incrementing `request_count`; so the
scenario records `request_count = 5` with 5 telemetry records, not
`requestCount = 1` with 3 records as claimed. -/
theorem request_count_counterexample :
    ¬ ((make_request_with_retry 2
          (fun i => if i < 2 then .resp 500 "err" else .resp 200 "ok")
          "GET" "https://x/y" ClientState.initial).state.request_count = 1 ∧
        (make_request_with_retry 2
          (fun i => if i < 2 then .resp 500 "err" else .resp 200 "ok")
          "GET" "https://x/y" ClientState.initial).state.last_requests.length
          = 3) := by
  decide

/-- C1 as amended: every `_log_request` call increments `request_count`
by exactly one, and `_log_request` runs once per attempt that received a
response plus once per attempt that raised; hence the 500, 500, success
scenario with `maxRetries = 2` returns the successful body after 3
transport attempts and leaves `request_count = 5`, `error_count = 2`
and 5 telemetry records. -/
theorem request_count_per_log_event :
    (∀ (st : ClientState) (m u : String) (s : ℕ) (e : Option ReqError),
      (log_request st m u s e).request_count = st.request_count + 1) ∧
    (make_request_with_retry 2
        (fun i => if i < 2 then .resp 500 "err" else .resp 200 "ok")
        "GET" "https://x/y" ClientState.initial).response = .ok "ok" ∧
    (make_request_with_retry 2
        (fun i => if i < 2 then .resp 500 "err" else .resp 200 "ok")
        "GET" "https://x/y" ClientState.initial).attempts = 3 ∧
    (make_request_with_retry 2
        (fun i => if i < 2 then .resp 500 "err" else .resp 200 "ok")
        "GET" "https://x/y" ClientState.initial).state.request_count = 5 ∧
    (make_request_with_retry 2
        (fun i => if i < 2 then .resp 500 "err" else .resp 200 "ok")
        "GET" "https://x/y" ClientState.initial).state.error_count = 2 ∧
    (make_request_with_retry 2
        (fun i => if i < 2 then .resp 500 "err" else .resp 200 "ok")
        "GET" "https://x/y" ClientState.initial).state.last_requests.length
        = 5 := by
  refine ⟨fun st m u s e => rfl, ?_, ?_, ?_, ?_, ?_⟩ <;> decide

/-- During a run in which every attempt fails retryably, the loop uses
all its fuel: one attempt per remaining iteration, a backoff of
`min(2 ** attempt, 30)` seconds after each attempt except the last, and
the error of the final attempt raised at the end. -/
theorem retryAux_all_retryable (mr : ℕ) (script : ℕ → TransportOutcome)
    (m u : String) (hall : ∀ i, retryableB (script i) = true) :
    ∀ fuel i (st : ClientState) (att : ℕ) (sl : List ℕ)
      (last : Option ReqError), i + (fuel + 1) = mr + 1 →
      (retryAux mr script m u (fuel + 1) i last st att sl).attempts
          = att + (fuel + 1) ∧
      (retryAux mr script m u (fuel + 1) i last st att sl).sleeps
          = sl ++ (List.range' i fuel).map (fun j => min (2 ^ j) 30) ∧
      (retryAux mr script m u (fuel + 1) i last st att sl).response
          = .error (errOf (script mr)) := by
  intro fuel
  induction fuel with
  | zero =>
      intro i st att sl last hi
      have him : i = mr := by omega
      subst him
      have hr := hall i
      cases hs : script i with
      | resp status text =>
          rw [hs] at hr
          have h5 : 500 ≤ status := by simpa [retryableB] using hr
          simp only [retryAux, hs]
          rw [if_pos (by omega : 400 ≤ status),
            if_neg (by omega : ¬ status < 500),
            if_neg (by omega : ¬ i < i)]
          refine ⟨rfl, by simp, ?_⟩
          simp [errOf, hs]
      | netError =>
          simp only [retryAux, hs]
          rw [if_neg (by omega : ¬ i < i)]
          refine ⟨rfl, by simp, ?_⟩
          simp [errOf, hs]
  | succ fuel ih =>
      intro i st att sl last hi
      have hilt : i < mr := by omega
      have hr := hall i
      cases hs : script i with
      | resp status text =>
          rw [hs] at hr
          have h5 : 500 ≤ status := by simpa [retryableB] using hr
          rw [retryAux, hs]
          dsimp only
          rw [if_pos (by omega : 400 ≤ status),
            if_neg (by omega : ¬ status < 500), if_pos hilt]
          obtain ⟨ha, hsl, hresp⟩ := ih (i + 1)
            (log_request (log_request st m u status none) m u 0
              (some (.httpError status)))
            (att + 1) (sl ++ [min (2 ^ i) 30]) (some (.httpError status))
            (by omega)
          refine ⟨?_, ?_, hresp⟩
          · rw [ha]
            omega
          · rw [hsl, List.range'_succ]
            simp
      | netError =>
          rw [retryAux, hs]
          dsimp only
          rw [if_pos hilt]
          obtain ⟨ha, hsl, hresp⟩ := ih (i + 1)
            (log_request st m u 0 (some .transportError))
            (att + 1) (sl ++ [min (2 ^ i) 30]) (some .transportError)
            (by omega)
          refine ⟨?_, ?_, hresp⟩
          · rw [ha]
            omega
          · rw [hsl, List.range'_succ]
            simp

/-- C5: an attempt failing with an HTTP status in 400..499 is never
retried — exactly one attempt is made, no backoff sleep happens and the
error is raised at once; when every attempt fails with status at least
500 or a connection/timeout-level error, `maxRetries + 1` total attempts
are made with sleeps of `min(2 ** attemptIndex, 30)` seconds between
attempts, and the error of the last attempt is raised. -/
theorem retry_classification (mr : ℕ) (script : ℕ → TransportOutcome)
    (m u : String) (st : ClientState) :
    (∀ (s : ℕ) (t : String), script 0 = .resp s t → 400 ≤ s → s < 500 →
      (make_request_with_retry mr script m u st).attempts = 1 ∧
      (make_request_with_retry mr script m u st).sleeps = [] ∧
      (make_request_with_retry mr script m u st).response
        = .error (.httpError s)) ∧
    ((∀ i, retryableB (script i) = true) →
      (make_request_with_retry mr script m u st).attempts = mr + 1 ∧
      (make_request_with_retry mr script m u st).sleeps
        = (List.range mr).map (fun j => min (2 ^ j) 30) ∧
      (make_request_with_retry mr script m u st).response
        = .error (errOf (script mr))) := by
  constructor
  · intro s t h0 h4 hlt
    unfold make_request_with_retry
    simp only [retryAux, h0]
    rw [if_pos h4, if_pos hlt]
    exact ⟨rfl, rfl, rfl⟩
  · intro hall
    unfold make_request_with_retry
    have h := retryAux_all_retryable mr script m u hall mr 0
      st 0 [] none (by omega)
    simpa [List.range_eq_range'] using h

/-- Witness for C5: with `maxRetries = 3` a constant 404 transport
makes exactly 1 attempt, sleeps nowhere, and raises the 404 error; with
`maxRetries = 6` a constant 503 transport makes 7 attempts with sleeps
1, 2, 4, 8, 16, 30 seconds and raises the 503 error. -/
theorem retry_classification_witness :
    ((make_request_with_retry 3 (fun _ => .resp 404 "nf") "GET" "u"
        ClientState.initial).attempts = 1 ∧
      (make_request_with_retry 3 (fun _ => .resp 404 "nf") "GET" "u"
        ClientState.initial).sleeps = [] ∧
      (make_request_with_retry 3 (fun _ => .resp 404 "nf") "GET" "u"
        ClientState.initial).response = .error (.httpError 404)) ∧
    ((make_request_with_retry 6 (fun _ => .resp 503 "") "GET" "u"
        ClientState.initial).attempts = 7 ∧
      (make_request_with_retry 6 (fun _ => .resp 503 "") "GET" "u"
        ClientState.initial).sleeps = [1, 2, 4, 8, 16, 30] ∧
      (make_request_with_retry 6 (fun _ => .resp 503 "") "GET" "u"
        ClientState.initial).response = .error (.httpError 503)) := by
  constructor
  · exact (retry_classification 3 (fun _ => .resp 404 "nf") "GET" "u"
      ClientState.initial).1 404 "nf" rfl (by decide) (by decide)
  · obtain ⟨h1, h2, h3⟩ := (retry_classification 6 (fun _ => .resp 503 "")
      "GET" "u" ClientState.initial).2 (fun i => rfl)
    refine ⟨h1, ?_, h3⟩
    rw [h2]
    decide

/-- C2: the raw-text fallback is returned at network.py 1370 and 1374
before the cache-store step ever runs, so a successful cache-enabled GET
whose body falls back to raw text stores nothing — contradicting both
the claim and the comment of the store step itself; a successfully
parsed JSON body is stored as claimed. Shown at the concrete failing
input: a GET with caching on whose response body is "hello" with
content type text/plain returns the raw text with no store, while a
JSON body is stored under the request cache key. -/
theorem raw_text_fallback_not_cached :
    request_finish (J := Unit) (fun _ => none) "GET" "https://x/items" []
        true "hello" "text/plain" = (.raw "hello", none) ∧
    request_finish (J := Unit) (fun _ => none) "GET" "https://x/items" []
        true "not json" "application/json" = (.raw "not json", none) ∧
    request_finish (J := Unit) (fun _ => some ()) "GET" "https://x/items" []
        true "(ok)" "application/json" =
      (.json (), some ("GET:https://x/items", .json ())) := by
  refine ⟨?_, ?_, ?_⟩ <;> decide

/-- C10: whenever the final response body is empty or consists only of
whitespace, `request` returns `None` at network.py 1355, before both the
raw-text fallback and the cache-store step, so nothing is stored even
for a cache-enabled GET. -/
theorem empty_body_returns_none {J : Type} (parse : String → Option J)
    (m u : String) (params : List (String × String)) (uc : Bool)
    (text ctype : String) (h : (pyStrip text).data.isEmpty = true) :
    request_finish parse m u params uc text ctype = (.noneEmpty, none) := by
  unfold request_finish
  rw [if_pos h]

/-- Witness for C10: a body of spaces, a newline and a tab on a
cache-enabled GET with a JSON content type returns `None` and stores
nothing. -/
theorem empty_body_returns_none_witness :
    request_finish (J := Unit) (fun _ => some ()) "GET" "https://x/items" []
        true "  \n\t " "application/json" = (.noneEmpty, none) :=
  empty_body_returns_none (J := Unit) (fun _ => some ()) "GET"
    "https://x/items" [] true "  \n\t " "application/json" (by decide)

/-- unescape undoes escL: scanning the escaped body followed by the
closing quote recovers the body and the remainder. -/
theorem unescape_escL (q : Char) (hq : q ≠ backslashChar) :
    ∀ (s t : List Char), unescape q (escL q s ++ q :: t) = some (s, t) := by
  intro s
  induction s with
  | nil =>
      intro t
      rw [escL]
      simp only [List.nil_append]
      rw [unescape.eq_def]
      simp
  | cons c cs ih =>
      intro t
      by_cases hc : c = backslashChar ∨ c = q
      · rw [escL, if_pos hc]
        have harr : (backslashChar :: c :: escL q cs) ++ q :: t =
            backslashChar :: c :: (escL q cs ++ q :: t) := by simp
        rw [harr]
        rw [unescape.eq_def]
        simp [Ne.symm hq, ih]
      · push_neg at hc
        rw [escL, if_neg (by tauto)]
        have harr : (c :: escL q cs) ++ q :: t =
            c :: (escL q cs ++ q :: t) := by simp
        rw [harr]
        rw [unescape.eq_def]
        simp [hc.1, hc.2, ih]

/-- parseStr undoes reprStrL, whichever quote style repr chose. -/
theorem parseStr_reprStrL : ∀ (s t : List Char),
    parseStr (reprStrL s ++ t) = some (s, t) := by
  intro s t
  unfold reprStrL
  by_cases h : quoteChar ∈ s ∧ ¬ dquoteChar ∈ s
  · rw [if_pos h]
    have harr : (dquoteChar :: (escL dquoteChar s ++ [dquoteChar])) ++ t =
        dquoteChar :: (escL dquoteChar s ++ (dquoteChar :: t)) := by simp
    rw [harr]
    simp only [parseStr]
    rw [if_pos (by tauto)]
    exact unescape_escL dquoteChar (by decide) s t
  · rw [if_neg h]
    have harr : (quoteChar :: (escL quoteChar s ++ [quoteChar])) ++ t =
        quoteChar :: (escL quoteChar s ++ (quoteChar :: t)) := by simp
    rw [harr]
    simp only [parseStr]
    rw [if_pos (by tauto)]
    exact unescape_escL quoteChar (by decide) s t

/-- parsePair undoes reprPairL. -/
theorem parsePair_reprPairL : ∀ (p : List Char × List Char) (t : List Char),
    parsePair (reprPairL p ++ t) = some (p, t) := by
  rintro ⟨k, v⟩ t
  have harr : reprPairL (k, v) ++ t =
      '(' :: (reprStrL k ++ (',' :: ' ' :: (reprStrL v ++ (')' :: t)))) := by
    simp [reprPairL]
  rw [harr]
  simp only [parsePair]
  rw [parseStr_reprStrL]
  simp only []
  rw [parseStr_reprStrL]
  rfl

/-- The item list of a Python list repr, followed by the closing
bracket, determines the items and whatever follows the bracket. -/
theorem reprItemsL_tail_inj :
    ∀ (l1 l2 : List (List Char × List Char)) (t1 t2 : List Char),
      reprItemsL l1 ++ rbrackChar :: t1 = reprItemsL l2 ++ rbrackChar :: t2 →
      l1 = l2 ∧ t1 = t2 := by
  intro l1
  induction l1 with
  | nil =>
      intro l2 t1 t2 h
      cases l2 with
      | nil => simpa [reprItemsL] using h
      | cons q qs =>
          exfalso
          rw [reprItemsL, reprItemsL] at h
          obtain ⟨k, v⟩ := q
          have harr : (reprPairL (k, v) ++
              (if qs = [] then [] else ',' :: ' ' :: reprItemsL qs)) ++
                rbrackChar :: t2 =
              '(' :: (reprStrL k ++ (',' :: ' ' :: (reprStrL v ++ (')' ::
                ((if qs = [] then [] else ',' :: ' ' :: reprItemsL qs) ++
                  rbrackChar :: t2))))) := by
            simp [reprPairL]
          rw [harr] at h
          simp only [List.nil_append] at h
          have hhead := congrArg (List.headD · ' ') h
          simp at hhead
          exact absurd hhead (by decide)
  | cons p ps ih =>
      intro l2 t1 t2 h
      cases l2 with
      | nil =>
          exfalso
          rw [reprItemsL, reprItemsL] at h
          obtain ⟨k, v⟩ := p
          have harr : (reprPairL (k, v) ++
              (if ps = [] then [] else ',' :: ' ' :: reprItemsL ps)) ++
                rbrackChar :: t1 =
              '(' :: (reprStrL k ++ (',' :: ' ' :: (reprStrL v ++ (')' ::
                ((if ps = [] then [] else ',' :: ' ' :: reprItemsL ps) ++
                  rbrackChar :: t1))))) := by
            simp [reprPairL]
          rw [harr] at h
          simp only [List.nil_append] at h
          have hhead := congrArg (List.headD · ' ') h
          simp at hhead
          exact absurd hhead (by decide)
      | cons q qs =>
          rw [reprItemsL, reprItemsL] at h
          have harr1 : (reprPairL p ++
              (if ps = [] then [] else ',' :: ' ' :: reprItemsL ps)) ++
                rbrackChar :: t1 =
              reprPairL p ++
                ((if ps = [] then [] else ',' :: ' ' :: reprItemsL ps) ++
                  rbrackChar :: t1) := by simp
          have harr2 : (reprPairL q ++
              (if qs = [] then [] else ',' :: ' ' :: reprItemsL qs)) ++
                rbrackChar :: t2 =
              reprPairL q ++
                ((if qs = [] then [] else ',' :: ' ' :: reprItemsL qs) ++
                  rbrackChar :: t2) := by simp
          rw [harr1, harr2] at h
          have h2 := congrArg parsePair h
          rw [parsePair_reprPairL, parsePair_reprPairL] at h2
          simp only [Option.some.injEq, Prod.mk.injEq] at h2
          obtain ⟨hpq, hrest⟩ := h2
          subst hpq
          by_cases hps : ps = [] <;> by_cases hqs : qs = []
          · subst hps
            subst hqs
            simp at hrest
            exact ⟨rfl, hrest⟩
          · exfalso
            rw [if_pos hps, if_neg hqs] at hrest
            simp only [List.nil_append, List.cons_append] at hrest
            injection hrest with h1 _
            exact absurd h1 (by decide)
          · exfalso
            rw [if_neg hps, if_pos hqs] at hrest
            simp only [List.nil_append, List.cons_append] at hrest
            injection hrest with h1 _
            exact absurd h1 (by decide)
          · rw [if_neg hps, if_neg hqs] at hrest
            simp only [List.cons_append, List.cons.injEq, true_and] at hrest
            obtain ⟨hl, ht⟩ := ih qs t1 t2 hrest
            exact ⟨by rw [hl], ht⟩

/-- reprListL is injective. -/
theorem reprListL_inj (l1 l2 : List (List Char × List Char))
    (h : reprListL l1 = reprListL l2) : l1 = l2 := by
  unfold reprListL at h
  simp only [List.cons.injEq, true_and] at h
  have h2 : reprItemsL l1 ++ rbrackChar :: [] =
      reprItemsL l2 ++ rbrackChar :: [] := by simpa using h
  exact (reprItemsL_tail_inj l1 l2 [] [] h2).1

/-- Strings with equal character data are equal. -/
theorem string_data_inj {s t : String} (h : s.data = t.data) : s = t := by
  cases s
  cases t
  exact congrArg String.mk (by simpa using h)

/-- The character data of the colon separator literal. -/
theorem colon_data : (":" : String).data = [':'] := by decide

/-- Python str of a parameter item list is injective. -/
theorem pyStrParams_inj (l1 l2 : List (String × String))
    (h : pyStrParams l1 = pyStrParams l2) : l1 = l2 := by
  unfold pyStrParams at h
  have hdata : reprListL (l1.map fun p => (p.1.data, p.2.data)) =
      reprListL (l2.map fun p => (p.1.data, p.2.data)) := by
    injection h
  have hmap := reprListL_inj _ _ hdata
  have hinj : Function.Injective
      (fun p : String × String => (p.1.data, p.2.data)) := by
    rintro ⟨a1, a2⟩ ⟨b1, b2⟩ hab
    simp only [Prod.mk.injEq] at hab
    exact Prod.ext (string_data_inj hab.1) (string_data_inj hab.2)
  exact List.map_injective_iff.mpr hinj hmap

/-- Sorting with the Python tuple order sends permuted item lists to the
same sorted list. -/
theorem sortPairs_eq_of_perm (p1 p2 : List (String × String))
    (h : List.Perm p1 p2) : sortPairs p1 = sortPairs p2 := by
  unfold sortPairs
  exact List.eq_of_perm_of_sorted (r := pairRel)
    (((List.perm_insertionSort pairRel p1).trans h).trans
      (List.perm_insertionSort pairRel p2).symm)
    (List.sorted_insertionSort pairRel p1)
    (List.sorted_insertionSort pairRel p2)

/-- Item lists with the same sorted form are permutations of one
another. -/
theorem perm_of_sortPairs_eq (p1 p2 : List (String × String))
    (h : sortPairs p1 = sortPairs p2) : List.Perm p1 p2 := by
  have h1 : List.Perm p1 (sortPairs p1) :=
    (List.perm_insertionSort pairRel p1).symm
  have h2 : List.Perm (sortPairs p2) p2 :=
    List.perm_insertionSort pairRel p2
  rw [h] at h1
  exact h1.trans h2

/-- Data of a two-part colon join. -/
theorem joinColon_two_data (a b : String) :
    (joinColon [a, b]).data = a.data ++ ':' :: b.data := by
  show ((a ++ ":") ++ b).data = a.data ++ ':' :: b.data
  rw [String.data_append, String.data_append, colon_data]
  simp

/-- Data of a three-part colon join. -/
theorem joinColon_three_data (a b c : String) :
    (joinColon [a, b, c]).data = a.data ++ ':' :: (b.data ++ ':' :: c.data) := by
  show ((a ++ ":") ++ joinColon [b, c]).data =
    a.data ++ ':' :: (b.data ++ ':' :: c.data)
  rw [String.data_append, String.data_append, colon_data, joinColon_two_data]
  simp

/-- C8: cache key generation is order independent in the query
parameters and distinguishes different parameter maps: for a fixed
method and url, two parameter item lists produce the same cache key
exactly when they are permutations of each other (the same key-value
pairs in any enumeration order). -/
theorem cache_key_order_independent (m u : String)
    (p1 p2 : List (String × String)) :
    generate_cache_key m u p1 = generate_cache_key m u p2 ↔
      List.Perm p1 p2 := by
  constructor
  · intro h
    simp only [generate_cache_key] at h
    by_cases h1 : p1 = [] <;> by_cases h2 : p2 = []
    · subst h1
      subst h2
      exact List.Perm.refl []
    · exfalso
      rw [if_pos h1, if_neg h2] at h
      have hd := congrArg String.data h
      rw [joinColon_two_data] at hd
      rw [show [pyUpper m, u] ++ [pyStrParams (sortPairs p2)] =
        [pyUpper m, u, pyStrParams (sortPairs p2)] from rfl,
        joinColon_three_data] at hd
      have hu := List.append_cancel_left hd
      have hlen := congrArg List.length hu
      simp at hlen
    · exfalso
      rw [if_neg h1, if_pos h2] at h
      have hd := congrArg String.data h
      rw [joinColon_two_data] at hd
      rw [show [pyUpper m, u] ++ [pyStrParams (sortPairs p1)] =
        [pyUpper m, u, pyStrParams (sortPairs p1)] from rfl,
        joinColon_three_data] at hd
      have hu := List.append_cancel_left hd
      have hlen := congrArg List.length hu
      simp at hlen
    · rw [if_neg h1, if_neg h2] at h
      rw [show [pyUpper m, u] ++ [pyStrParams (sortPairs p1)] =
        [pyUpper m, u, pyStrParams (sortPairs p1)] from rfl,
        show [pyUpper m, u] ++ [pyStrParams (sortPairs p2)] =
        [pyUpper m, u, pyStrParams (sortPairs p2)] from rfl] at h
      have hd := congrArg String.data h
      rw [joinColon_three_data, joinColon_three_data] at hd
      have hu := List.append_cancel_left hd
      have hc := List.cons_injective hu
      have hr := List.append_cancel_left hc
      have hrr : (pyStrParams (sortPairs p1)).data =
          (pyStrParams (sortPairs p2)).data := List.cons_injective hr
      exact perm_of_sortPairs_eq p1 p2
        (pyStrParams_inj _ _ (string_data_inj hrr))
  · intro h
    simp only [generate_cache_key]
    have hs := sortPairs_eq_of_perm p1 p2 h
    by_cases h1 : p1 = []
    · have h2 : p2 = [] := by
        subst h1
        exact h.nil_eq.symm
      rw [h1, h2]
    · have h2 : p2 ≠ [] := by
        intro hc
        subst hc
        exact h1 h.symm.nil_eq.symm
      rw [if_neg h1, if_neg h2, hs]

end NetworkTest
